import Mathlib

/-
  Verification of the batch-processing core of the orderJsonFiles repository.

  The embedding models the two duplicated implementation variants:
    - src/checkByAI.py      (thread-pool + requests, namespace CheckByAI)
    - src/checkByAIV1.py    (asyncio + aiohttp,      namespace CheckByAIV1)
  together with the exit behaviour of src/proofread_mcqs.py
  (namespace ProofreadMcqs).

  Machine reals (the Python floats 1.5 and 0.1) are modelled as rationals;
  the nested message content of an HTTP response is modelled by its
  classification (empty, JSON object, JSON non-object, not JSON), which is
  exactly the case split that extract_json_from_response and the worker
  perform on it.
-/

namespace OrderJsonFiles

/-! ## Configuration constants (identical in both variants) -/

/-- MAX_CONCURRENT = 10 (checkByAI.py line 18, checkByAIV1.py line 18). -/
def MAX_CONCURRENT : Nat := 10

/-- MAX_RETRIES = 4 (line 20 of both variants). -/
def MAX_RETRIES : Nat := 4

/-- BACKOFF_FACTOR = 1.5 (line 21 of both variants), as the exact rational. -/
def BACKOFF_FACTOR : ℚ := 3 / 2

/-- RATE_LIMIT_SECONDS = 0.1 (line 19 of both variants), as the exact
rational value the source text denotes. -/
def RATE_LIMIT_SECONDS : ℚ := 1 / 10

/-! ## safe_filename (checkByAI.py lines 29-32, identical in checkByAIV1.py)

    def safe_filename(name: str) -> str:
        name = re.sub(r"[^\w\-_. ]", "_", name)
        name = name.strip().replace(" ", "_")
        return name[:200]
-/

/-- A character matched by the regex class [\w\-_. ]: a word character
(alphanumeric or underscore), hyphen, underscore, dot or space.  Python
\w also matches non-ASCII word characters; the model uses the ASCII
reading, on which every claim about the function is stated. -/
def allowedChar (c : Char) : Bool :=
  c.isAlphanum || c = '_' || c = '-' || c = '.' || c = ' '

/-- str.strip(): drop leading and trailing whitespace. -/
def stripWs (l : List Char) : List Char :=
  ((l.dropWhile Char.isWhitespace).reverse.dropWhile Char.isWhitespace).reverse

/-- Character-list form of safe_filename: substitute every character
outside [\w\-_. ] by an underscore, strip, replace spaces by
underscores, truncate to 200 characters. -/
def safe_filename_chars (name : List Char) : List Char :=
  let n1 := name.map (fun c => if allowedChar c then c else '_')
  let n2 := stripWs n1
  let n3 := n2.map (fun c => if c = ' ' then '_' else c)
  n3.take 200

/-- safe_filename of checkByAI.py lines 29-32 / checkByAIV1.py lines 29-32. -/
def safe_filename (name : String) : String :=
  String.mk (safe_filename_chars name.data)

/-! ## Remote call model

An attempt is answered by the mock remote service with one of:
  - ok content: an HTTP 2xx whose nested message content (the field
    choices[0].message.content) is classified by a RespContent;
  - httpErr status: an HTTP error status (4xx or 5xx);
  - netErr: a transport-level error (timeout, connection reset).
A respond function Nat -> CallOutcome gives the outcome of the k-th POST
(0-based), so a single function describes any per-item mock service. -/

/-- Classification of the nested message content of a 2xx response.
jsonObject records the optional disease / source_filename fields the
parsed object itself carries; jsonOther is valid JSON that is not an
object; unparseable is content on which json.loads raises. -/
inductive RespContent
  | emptyContent
  | jsonObject (diseaseField sourceField : Option String) (body : String)
  | jsonOther (body : String)
  | unparseable (raw : String)
deriving DecidableEq

/-- What the remote service does on one attempt. -/
inductive CallOutcome
  | ok (content : RespContent)
  | httpErr (status : Nat)
  | netErr
deriving DecidableEq

/-- How call_deepseek_with_retries terminates: a returned response body,
or an exception carrying the HTTP status, or a transport exception. -/
inductive CallFinal
  | returned (content : RespContent)
  | raisedHttp (status : Nat)
  | raisedNet
deriving DecidableEq

/-- Observable trace of one call_deepseek_with_retries invocation:
how many POSTs were issued, the backoff delays slept between them
(in order), and how the function terminated. -/
structure CallTrace where
  attempts : Nat
  sleeps : List ℚ
  final : CallFinal
deriving DecidableEq

namespace CheckByAI

/-- The while-loop of checkByAI.py lines 160-198.  The loop variable a is
the Python attempt counter; fuel bounds the recursion and is unreachable
at 0 whenever fuel exceeds maxRetries - a, since every retry increments a
and retrying requires a < maxRetries.  Branches:
  - respond a = ok c: resp.raise_for_status passes, resp.json() returned;
  - httpErr s with 500 <= s < 600 and a < maxRetries (line 171): attempt
    += 1, sleep BACKOFF_FACTOR ** attempt + RATE_LIMIT_SECONDS, continue;
  - any other httpErr: re-raise the HTTPError (line 185);
  - netErr with a < maxRetries (line 187): same increment and sleep;
  - netErr otherwise: re-raise (line 194). -/
def callLoop (respond : Nat → CallOutcome) (maxRetries : Nat) (backoff jitter : ℚ) :
    Nat → Nat → CallTrace
  | 0, _ => ⟨0, [], .raisedNet⟩
  | fuel + 1, a =>
    match respond a with
    | .ok c => ⟨1, [], .returned c⟩
    | .httpErr s =>
      if 500 ≤ s ∧ s < 600 ∧ a < maxRetries then
        let t := callLoop respond maxRetries backoff jitter fuel (a + 1)
        ⟨t.attempts + 1, (backoff ^ (a + 1) + jitter) :: t.sleeps, t.final⟩
      else ⟨1, [], .raisedHttp s⟩
    | .netErr =>
      if a < maxRetries then
        let t := callLoop respond maxRetries backoff jitter fuel (a + 1)
        ⟨t.attempts + 1, (backoff ^ (a + 1) + jitter) :: t.sleeps, t.final⟩
      else ⟨1, [], .raisedNet⟩

/-- call_deepseek_with_retries of checkByAI.py lines 155-198: run the
loop from attempt = 0 with enough fuel for all maxRetries + 1 attempts. -/
def call_deepseek_with_retries (respond : Nat → CallOutcome) (maxRetries : Nat)
    (backoff jitter : ℚ) : CallTrace :=
  callLoop respond maxRetries backoff jitter (maxRetries + 1) 0

end CheckByAI

namespace CheckByAIV1

/-- The while-loop of checkByAIV1.py lines 161-212.  Differences from the
sync variant: every HTTP error status raises aiohttp.ClientResponseError
(line 187), and ClientResponseError is a subclass of aiohttp.ClientError,
so it is caught by the handler at line 197 together with transport
errors; that handler retries whenever a < maxRetries, with the same
backoff formula.  Hence in this variant a 4xx response is retried just
like a 5xx or a network error.  The fuel-0 value models the
unreachable raise at line 212. -/
def callLoop (respond : Nat → CallOutcome) (maxRetries : Nat) (backoff jitter : ℚ) :
    Nat → Nat → CallTrace
  | 0, _ => ⟨0, [], .raisedNet⟩
  | fuel + 1, a =>
    match respond a with
    | .ok c => ⟨1, [], .returned c⟩
    | .httpErr s =>
      if 500 ≤ s ∧ s < 600 ∧ a < maxRetries then
        let t := callLoop respond maxRetries backoff jitter fuel (a + 1)
        ⟨t.attempts + 1, (backoff ^ (a + 1) + jitter) :: t.sleeps, t.final⟩
      else if a < maxRetries then
        let t := callLoop respond maxRetries backoff jitter fuel (a + 1)
        ⟨t.attempts + 1, (backoff ^ (a + 1) + jitter) :: t.sleeps, t.final⟩
      else ⟨1, [], .raisedHttp s⟩
    | .netErr =>
      if a < maxRetries then
        let t := callLoop respond maxRetries backoff jitter fuel (a + 1)
        ⟨t.attempts + 1, (backoff ^ (a + 1) + jitter) :: t.sleeps, t.final⟩
      else ⟨1, [], .raisedNet⟩

/-- call_deepseek_with_retries of checkByAIV1.py lines 154-212. -/
def call_deepseek_with_retries (respond : Nat → CallOutcome) (maxRetries : Nat)
    (backoff jitter : ℚ) : CallTrace :=
  callLoop respond maxRetries backoff jitter (maxRetries + 1) 0

end CheckByAIV1

/-! ## Worker model (process_file / process_file_async) -/

/-- Result of the json.load of one input file: a read/parse failure
with its message; a successful parse whose value is NOT a dict (e.g. a
top-level JSON array), on which the later data.get raises
AttributeError because that line sits outside the try block covering
json.load; or a loaded dict, abstracted by its optional disease field
and the length of its mcqs list (the only parts of the record the
worker inspects before building the payload). -/
inductive LoadOutcome
  | readError (msg : String)
  | loadedNonDict
  | loaded (disease : Option String) (mcqsCount : Nat)
deriving DecidableEq, Inhabited

/-- One input file: its name (path.name), its stem (path.stem) and what
loading it yields. -/
structure WorkFile where
  fname : String
  stem : String
  load : LoadOutcome
deriving DecidableEq, Inhabited

/-- What json.loads applied to the message content can yield: a JSON
object (with its own optional disease / source_filename fields and the
rest of its content abstracted as body), some other JSON value, or -
when parsing failed - the raw content string itself. -/
inductive PyValue
  | obj (diseaseField sourceField : Option String) (body : String)
  | nonObj (body : String)
  | strVal (s : String)
deriving DecidableEq

/-- extract_json_from_response (checkByAI.py lines 137-152; the V1
version at checkByAIV1.py lines 137-151 receives the already-extracted
content string and classifies it identically): empty content gives
None, parseable content gives the parsed JSON value, unparseable
content gives the raw string back. -/
def extract_json_from_response : RespContent → Option PyValue
  | .emptyContent => none
  | .jsonObject d s b => some (.obj d s b)
  | .jsonOther b => some (.nonObj b)
  | .unparseable raw => some (.strVal raw)

/-- The dictionary a worker returns for one file, which the coordinator
then persists: an explicit error record, a degraded-success record
wrapping a raw unparsed response, or a reviewed result object whose
disease and source_filename fields have been ensured. -/
inductive ItemResult
  | errorResult (disease : Option String) (source_filename : String) (error : String)
  | rawResult (disease : String) (source_filename : String) (raw_response : String)
  | okResult (disease : String) (source_filename : String) (body : String)
deriving DecidableEq

/-- result.get("disease") on the returned dictionary. -/
def ItemResult.diseaseGet : ItemResult → Option String
  | .errorResult d _ _ => d
  | .rawResult d _ _ => some d
  | .okResult d _ _ => some d

/-- Whether the persisted record is an explicit error record (carries an
"error" key), i.e. the item was treated as a failure. -/
def ItemResult.isError : ItemResult → Bool
  | .errorResult _ _ _ => true
  | _ => false

/-- How one worker invocation ends: a returned dictionary, or an
exception escaping the worker (the message string abstracts str(e)).
In checkByAI.py an escaped exception is converted to an error record
by the coordinator (lines 270-272); in checkByAIV1.py it is only
logged by the coordinator (lines 306-307) and no write happens. -/
inductive WorkerResult
  | ok (r : ItemResult)
  | raised (msg : String)
deriving DecidableEq

/-- Whether the worker outcome counts as a failure of the item: an
explicit error record, or an escaped exception. -/
def WorkerResult.isFailure : WorkerResult → Bool
  | .ok r => r.isError
  | .raised _ => true

namespace CheckByAI

/-- process_file of checkByAI.py lines 201-248 (the semaphore argument
governs scheduling only and is modelled by the pool system below):
  - read failure (lines 203-208): error record "read_error: ...";
  - loaded value is not a dict: data.get at line 210 sits OUTSIDE the
    try of lines 203-208, so the AttributeError escapes process_file
    (it is the caller that converts it, at main lines 270-272);
  - disease = data.get("disease") or path.stem (line 210);
  - the call raises (HTTP error or exhausted network retries): the
    except at line 239 converts it to an error record with str(e);
  - extract_json_from_response is None, i.e. empty content (line 225):
    error record "Empty response from API";
  - extracted value is a string (line 230): degraded-success record
    with the raw text under raw_response;
  - extracted value is a JSON object (lines 233-237): disease and
    source_filename are inserted when absent, object kept;
  - extracted value is other JSON (list, number, ...): the membership
    test / item assignment on it raises TypeError, which the same
    except at line 239 converts to an error record. -/
def process_file (respond : Nat → CallOutcome) (f : WorkFile) : WorkerResult :=
  match f.load with
  | .readError msg => .ok (.errorResult none f.fname ("read_error: " ++ msg))
  | .loadedNonDict => .raised "AttributeError"
  | .loaded dOpt _ =>
    let disease := dOpt.getD f.stem
    match (call_deepseek_with_retries respond MAX_RETRIES BACKOFF_FACTOR
        RATE_LIMIT_SECONDS).final with
    | .raisedHttp s => .ok (.errorResult (some disease) f.fname ("HTTP " ++ toString s))
    | .raisedNet => .ok (.errorResult (some disease) f.fname "network error")
    | .returned c =>
      match extract_json_from_response c with
      | none => .ok (.errorResult (some disease) f.fname "Empty response from API")
      | some (.strVal raw) => .ok (.rawResult disease f.fname raw)
      | some (.obj dv sv body) =>
        .ok (.okResult (dv.getD disease) (sv.getD f.fname) body)
      | some (.nonObj _) => .ok (.errorResult (some disease) f.fname "TypeError")

end CheckByAI

namespace CheckByAIV1

/-- process_file_async of checkByAIV1.py lines 215-272.  Same structure
as the sync worker, except that a record whose mcqs list is empty is
rejected before any call (lines 232-234), and the call loop is the V1
one.  As in the sync variant, data.get at line 227 sits outside the
try of lines 220-225, so a loaded non-dict value raises AttributeError
out of the coroutine. -/
def process_file_async (respond : Nat → CallOutcome) (f : WorkFile) : WorkerResult :=
  match f.load with
  | .readError msg => .ok (.errorResult none f.fname ("read_error: " ++ msg))
  | .loadedNonDict => .raised "AttributeError"
  | .loaded dOpt mcqsCount =>
    let disease := dOpt.getD f.stem
    if mcqsCount = 0 then .ok (.errorResult (some disease) f.fname "No MCQs found")
    else
      match (call_deepseek_with_retries respond MAX_RETRIES BACKOFF_FACTOR
          RATE_LIMIT_SECONDS).final with
      | .raisedHttp s =>
        .ok (.errorResult (some disease) f.fname ("HTTP " ++ toString s))
      | .raisedNet => .ok (.errorResult (some disease) f.fname "network error")
      | .returned c =>
        match extract_json_from_response c with
        | none => .ok (.errorResult (some disease) f.fname "Empty response from API")
        | some (.strVal raw) => .ok (.rawResult disease f.fname raw)
        | some (.obj dv sv body) =>
          .ok (.okResult (dv.getD disease) (sv.getD f.fname) body)
        | some (.nonObj _) => .ok (.errorResult (some disease) f.fname "TypeError")

end CheckByAIV1

/-! ## Batch coordinator model

A batch is a list of WorkFiles plus, for each item index, a respond
function describing the mock remote service for that item.  A write
event (i, name, r) records one atomic_write invocation: item index i
persisted record r to output file name.  In checkByAI.py the events
happen in as_completed order, a permutation of the indices supplied
from outside; in checkByAIV1.py the coordinator awaits the tasks in
submission order, so the events are in index order. -/

namespace CheckByAI

/-- The body of the as_completed loop of checkByAI.py lines 265-284 for
the future of item i: take its result; if the worker raised, the
except at lines 270-272 converts the escaped exception into the error
record with disease None, source_filename and str(e); then compute
disease_name = result.get("disease") or path.stem and write
review_<safe_filename(disease_name)>.json.  A write therefore happens
for every item in this variant. -/
def write_event (files : List WorkFile) (respond : Nat → Nat → CallOutcome)
    (i : Nat) : Nat × String × ItemResult :=
  let f := files.getD i default
  let result :=
    match process_file (respond i) f with
    | .ok r => r
    | .raised msg => .errorResult none f.fname msg
  let disease_name := result.diseaseGet.getD f.stem
  (i, "review_" ++ safe_filename disease_name ++ ".json", result)

/-- All write events of main (checkByAI.py lines 263-284), in the
as_completed arrival order given by order. -/
def main_writes (files : List WorkFile) (respond : Nat → Nat → CallOutcome)
    (order : List Nat) : List (Nat × String × ItemResult) :=
  order.map (write_event files respond)

/-- main of checkByAI.py lines 251-286: if the folder is missing the
error is logged and main returns (line 254); if no .json files are
found main returns (line 259); otherwise the batch runs.  In every
branch main returns None and the interpreter exits with status 0, so
the second component - the process exit status - is 0 throughout. -/
def main_run (folder_is_dir : Bool) (files : List WorkFile)
    (respond : Nat → Nat → CallOutcome) (order : List Nat) :
    Option (List (Nat × String × ItemResult)) × Nat :=
  if folder_is_dir = false then (none, 0)
  else if files.isEmpty then (none, 0)
  else (some (main_writes files respond order), 0)

end CheckByAI

namespace CheckByAIV1

/-- The per-item body of the result loop of checkByAIV1.py lines
289-307: same naming and write logic as the sync variant when the
awaited task returned a dictionary; but when the task raised, the
except at lines 306-307 only logs the exception - NO write is issued
for the item, hence none. -/
def write_event (files : List WorkFile) (respond : Nat → Nat → CallOutcome)
    (i : Nat) : Option (Nat × String × ItemResult) :=
  let f := files.getD i default
  match process_file_async (respond i) f with
  | .raised _ => none
  | .ok result =>
    let disease_name := result.diseaseGet.getD f.stem
    some (i, "review_" ++ safe_filename disease_name ++ ".json", result)

/-- process_files_async of checkByAIV1.py lines 275-307: one task per
file, awaited and persisted in submission order; items whose task
raised produce no write event. -/
def process_files_async_writes (files : List WorkFile)
    (respond : Nat → Nat → CallOutcome) : List (Nat × String × ItemResult) :=
  (List.range files.length).filterMap (write_event files respond)

/-- main of checkByAIV1.py lines 310-325: like the sync variant, every
branch returns normally, so the process exit status is 0 throughout. -/
def main_run (folder_is_dir : Bool) (files : List WorkFile)
    (respond : Nat → Nat → CallOutcome) :
    Option (List (Nat × String × ItemResult)) × Nat :=
  if folder_is_dir = false then (none, 0)
  else if files.isEmpty then (none, 0)
  else (some (process_files_async_writes files respond), 0)

end CheckByAIV1

namespace ProofreadMcqs

/-- Exit status of main in proofread_mcqs.py lines 127-130: a missing
input folder calls sys.exit with a message string, which exits with
status 1; a run that starts completes and exits 0 (item-level API
failures are converted to error entries at lines 106-107). -/
def main_exit_code (folder_is_dir : Bool) : Nat :=
  if folder_is_dir then 0 else 1

end ProofreadMcqs

/-! ## Persisted filesystem state

os.replace overwrites the target, so replaying the write events against
an initially empty directory yields the artifacts a reader finds after
the run.  The directory is a map from output name to persisted record
(none when no file of that name exists). -/

/-- One atomic_write to name k with content v: any existing file at k
is replaced. -/
def fs_write (fs : String → Option ItemResult) (k : String) (v : ItemResult) :
    String → Option ItemResult :=
  fun p => if p = k then some v else fs p

/-- Replay a list of write events against an empty directory. -/
def apply_writes (ws : List (Nat × String × ItemResult)) : String → Option ItemResult :=
  ws.foldl (fun fs e => fs_write fs e.2.1 e.2.2) (fun _ => none)

/-- The record carried by the last write event whose output name is
name, if any. -/
def last_write_to : List (Nat × String × ItemResult) → String → Option ItemResult
  | [], _ => none
  | e :: ws, name =>
    match last_write_to ws name with
    | some r => some r
    | none => if e.2.1 = name then some e.2.2 else none

/-! ## atomic_write as filesystem operations (checkByAI.py lines 34-39,
identical in checkByAIV1.py)

    def atomic_write(path: Path, data: Any):
        path.parent.mkdir(parents=True, exist_ok=True)
        with tempfile.NamedTemporaryFile(..., dir=str(path.parent)) as tmp:
            json.dump(data, tmp, indent=2, ensure_ascii=False)
            tmp_name = tmp.name
        os.replace(tmp_name, str(path))

The serialized JSON is written to the temporary file in chunks; the
model keeps the chunk list abstract.  NamedTemporaryFile creates a
fresh name in the same directory as the target, which os.replace then
renames over the target in one atomic step. -/

/-- The primitive filesystem operations atomic_write performs. -/
inductive FsOp
  | createTemp (tmp : String)
  | appendTemp (tmp : String) (chunk : String)
  | renameInto (tmp target : String)

/-- Effect of one operation on a filesystem (a map from path to the
full content of the file at that path, none when absent). -/
def apply_op (fs : String → Option String) : FsOp → String → Option String
  | .createTemp t, p => if p = t then some "" else fs p
  | .appendTemp t c, p => if p = t then (fs t).map (fun s => s ++ c) else fs p
  | .renameInto t tgt, p => if p = tgt then fs t else if p = t then none else fs p

/-- Apply a sequence of operations in order. -/
def apply_ops (fs : String → Option String) (ops : List FsOp) : String → Option String :=
  ops.foldl apply_op fs

/-- The operation sequence of one atomic_write call: create the
temporary file, stream the serialized data into it chunk by chunk,
rename it over the target. -/
def atomic_write_ops (tmp : String) (chunks : List String) (target : String) : List FsOp :=
  FsOp.createTemp tmp :: (chunks.map (FsOp.appendTemp tmp) ++ [FsOp.renameInto tmp target])

/-- The complete serialized content: the concatenation of all chunks. -/
def joinChunks : List String → String
  | [] => ""
  | c :: cs => c ++ joinChunks cs

/-! ## Concurrency dispatcher model

Each item is a task; a task holds a semaphore permit exactly while it
is inside a with-semaphore (sync, checkByAI.py line 219) or
async-with-semaphore (V1, checkByAIV1.py line 165) block.  Phases:
  - idle: not yet scheduled (or queued in the thread pool);
  - calling: a POST is in flight - the task necessarily holds a permit;
  - backoffHeld: sleeping a backoff delay while holding the permit
    (sync variant, where the with block spans the whole retry loop, and
    the 5xx backoff of the V1 variant, slept inside the async-with);
  - backoffFree: sleeping a backoff delay after releasing the permit
    (the V1 transport-error backoff at line 203, outside the block);
  - done: settled.
The step relation is the interleaving semantics of the batch: any task
may move at any time, acquisition requires a free permit. -/

inductive TaskPhase
  | idle
  | calling
  | backoffHeld
  | backoffFree
  | done
deriving DecidableEq

/-- Phases in which the task holds a semaphore permit. -/
def holdsPermit : TaskPhase → Bool
  | .calling => true
  | .backoffHeld => true
  | _ => false

/-- Phases in which a Remote Caller invocation is in flight. -/
def isCalling : TaskPhase → Bool
  | .calling => true
  | _ => false

/-- Scheduler state: free permits of the semaphore, and the phase of
each task. -/
structure PoolState where
  sem : Nat
  tasks : List TaskPhase
deriving DecidableEq

/-- Interleaving steps of the batch. -/
inductive PoolStep : PoolState → PoolState → Prop
  | startCall (s : PoolState) (i : Nat) (h : s.tasks[i]? = some .idle)
      (hs : 0 < s.sem) : PoolStep s ⟨s.sem - 1, s.tasks.set i .calling⟩
  | failHold (s : PoolState) (i : Nat) (h : s.tasks[i]? = some .calling) :
      PoolStep s ⟨s.sem, s.tasks.set i .backoffHeld⟩
  | failRelease (s : PoolState) (i : Nat) (h : s.tasks[i]? = some .calling) :
      PoolStep s ⟨s.sem + 1, s.tasks.set i .backoffFree⟩
  | resumeHeld (s : PoolState) (i : Nat) (h : s.tasks[i]? = some .backoffHeld) :
      PoolStep s ⟨s.sem, s.tasks.set i .calling⟩
  | reacquire (s : PoolState) (i : Nat) (h : s.tasks[i]? = some .backoffFree)
      (hs : 0 < s.sem) : PoolStep s ⟨s.sem - 1, s.tasks.set i .calling⟩
  | finishCall (s : PoolState) (i : Nat) (h : s.tasks[i]? = some .calling) :
      PoolStep s ⟨s.sem + 1, s.tasks.set i .done⟩

/-- States reachable by a batch of n tasks under a semaphore initialised
with N permits. -/
inductive PoolReachable (N n : Nat) : PoolState → Prop
  | init : PoolReachable N n ⟨N, List.replicate n .idle⟩
  | step {s t : PoolState} : PoolReachable N n s → PoolStep s t → PoolReachable N n t

end OrderJsonFiles

namespace OrderJsonFiles

/-! # Theorems -/

/-! ### Helper lemmas about safe_filename -/

theorem mem_stripWs {c : Char} {l : List Char} (h : c ∈ stripWs l) : c ∈ l := by
  unfold stripWs at h
  rw [List.mem_reverse] at h
  have h2 := (List.dropWhile_sublist (l := (l.dropWhile Char.isWhitespace).reverse)
    (p := Char.isWhitespace)).mem h
  rw [List.mem_reverse] at h2
  exact (List.dropWhile_sublist (l := l) (p := Char.isWhitespace)).mem h2

theorem mem_safe_filename_chars {c : Char} {name : List Char}
    (h : c ∈ safe_filename_chars name) : allowedChar c = true ∧ c ≠ ' ' := by
  unfold safe_filename_chars at h
  have h1 := (List.take_sublist _ _).mem h
  rw [List.mem_map] at h1
  obtain ⟨d, hd, hdc⟩ := h1
  have hd' := mem_stripWs hd
  rw [List.mem_map] at hd'
  obtain ⟨e, _, hec⟩ := hd'
  have hall : allowedChar d = true := by
    by_cases hal : allowedChar e = true
    · rw [if_pos hal] at hec; rw [← hec]; exact hal
    · rw [if_neg hal] at hec; rw [← hec]; decide
  by_cases hsp : d = ' '
  · subst hsp
    rw [if_pos rfl] at hdc
    subst hdc
    exact ⟨by decide, by decide⟩
  · rw [if_neg hsp] at hdc
    subst hdc
    exact ⟨hall, hsp⟩

/-- C10: safe_filename returns at most 200 characters, every character of
the result is a word character, hyphen, underscore or dot (all other
characters, spaces included, having been replaced by underscores and
leading/trailing whitespace stripped), so the result never contains a
path separator or a space. -/
theorem c10_safe_filename_safety (name : String) :
    (safe_filename name).length ≤ 200 ∧
    ∀ c ∈ (safe_filename name).data,
      (c.isAlphanum = true ∨ c = '_' ∨ c = '-' ∨ c = '.') ∧ c ≠ '/' ∧ c ≠ ' ' := by
  constructor
  · show (safe_filename_chars name.data).length ≤ 200
    unfold safe_filename_chars
    simp
  · intro c hc
    obtain ⟨hall, hsp⟩ := mem_safe_filename_chars hc
    refine ⟨?_, ?_, hsp⟩
    · simp only [allowedChar, Bool.or_eq_true, decide_eq_true_eq] at hall
      rcases hall with ((((h | h) | h) | h) | h)
      · exact Or.inl h
      · exact Or.inr (Or.inl h)
      · exact Or.inr (Or.inr (Or.inl h))
      · exact Or.inr (Or.inr (Or.inr h))
      · exact absurd h hsp
    · intro hc'
      subst hc'
      exact absurd hall (by decide)

/-! ### Helper lemmas about the retry loops -/

theorem syncCallLoop_const500 (mr : Nat) (b j : ℚ) :
    ∀ fuel a, mr - a < fuel →
      (CheckByAI.callLoop (fun _ => .httpErr 500) mr b j fuel a).attempts = mr - a + 1 ∧
      (CheckByAI.callLoop (fun _ => .httpErr 500) mr b j fuel a).final =
        .raisedHttp 500 := by
  intro fuel
  induction fuel with
  | zero => intro a ha; omega
  | succ fuel ih =>
    intro a ha
    by_cases h : a < mr
    · have hcond : 500 ≤ 500 ∧ 500 < 600 ∧ a < mr := ⟨le_refl _, by norm_num, h⟩
      obtain ⟨ih1, ih2⟩ := ih (a + 1) (by omega)
      simp only [CheckByAI.callLoop, if_pos hcond]
      exact ⟨by rw [ih1]; omega, ih2⟩
    · have hcond : ¬(500 ≤ 500 ∧ 500 < 600 ∧ a < mr) := fun hc => h hc.2.2
      simp only [CheckByAI.callLoop, if_neg hcond]
      exact ⟨by omega, by trivial⟩

theorem asyncCallLoop_const500 (mr : Nat) (b j : ℚ) :
    ∀ fuel a, mr - a < fuel →
      (CheckByAIV1.callLoop (fun _ => .httpErr 500) mr b j fuel a).attempts = mr - a + 1 ∧
      (CheckByAIV1.callLoop (fun _ => .httpErr 500) mr b j fuel a).final =
        .raisedHttp 500 := by
  intro fuel
  induction fuel with
  | zero => intro a ha; omega
  | succ fuel ih =>
    intro a ha
    by_cases h : a < mr
    · have hcond : 500 ≤ 500 ∧ 500 < 600 ∧ a < mr := ⟨le_refl _, by norm_num, h⟩
      obtain ⟨ih1, ih2⟩ := ih (a + 1) (by omega)
      simp only [CheckByAIV1.callLoop, if_pos hcond]
      exact ⟨by rw [ih1]; omega, ih2⟩
    · have hcond : ¬(500 ≤ 500 ∧ 500 < 600 ∧ a < mr) := fun hc => h hc.2.2
      simp only [CheckByAIV1.callLoop, if_neg hcond, if_neg h]
      exact ⟨by omega, by trivial⟩

/-- C2: with a remote service that answers HTTP 500 on every call, both
variants issue exactly 1 + maxRetries POSTs (5 under the default
MAX_RETRIES = 4) and then raise, and the worker records the item as an
explicit error ItemResult carrying the HTTP 500 cause. -/
theorem c2_http500_attempts_one_plus_max_retries (mr : Nat) (b j : ℚ)
    (fname stem : String) (d : Option String) (n : Nat) :
    (CheckByAI.call_deepseek_with_retries (fun _ => .httpErr 500) mr b j).attempts =
      mr + 1 ∧
    (CheckByAI.call_deepseek_with_retries (fun _ => .httpErr 500) mr b j).final =
      .raisedHttp 500 ∧
    (CheckByAIV1.call_deepseek_with_retries (fun _ => .httpErr 500) mr b j).attempts =
      mr + 1 ∧
    (CheckByAIV1.call_deepseek_with_retries (fun _ => .httpErr 500) mr b j).final =
      .raisedHttp 500 ∧
    (CheckByAI.call_deepseek_with_retries (fun _ => .httpErr 500) MAX_RETRIES
      BACKOFF_FACTOR RATE_LIMIT_SECONDS).attempts = 5 ∧
    (CheckByAIV1.call_deepseek_with_retries (fun _ => .httpErr 500) MAX_RETRIES
      BACKOFF_FACTOR RATE_LIMIT_SECONDS).attempts = 5 ∧
    CheckByAI.process_file (fun _ => .httpErr 500) ⟨fname, stem, .loaded d n⟩ =
      .ok (.errorResult (some (d.getD stem)) fname "HTTP 500") ∧
    CheckByAIV1.process_file_async (fun _ => .httpErr 500)
        ⟨fname, stem, .loaded d (n + 1)⟩ =
      .ok (.errorResult (some (d.getD stem)) fname "HTTP 500") := by
  obtain ⟨h1, h2⟩ := syncCallLoop_const500 mr b j (mr + 1) 0 (by omega)
  obtain ⟨h3, h4⟩ := asyncCallLoop_const500 mr b j (mr + 1) 0 (by omega)
  refine ⟨?_, h2, ?_, h4, rfl, rfl, rfl, rfl⟩
  · rw [CheckByAI.call_deepseek_with_retries, h1]; omega
  · rw [CheckByAIV1.call_deepseek_with_retries, h3]; omega

/-- C3, code-level evidence: with a remote service answering HTTP 400 on
every call and the default configuration, the sync variant issues
exactly one POST and settles as a fatal error record, but the V1
variant retries the 400 four times and issues five POSTs, because the
ClientResponseError it raises for the 4xx is itself an
aiohttp.ClientError and is caught by its own transport-error handler
(checkByAIV1.py line 197) - contradicting the adjacent comment that
client errors are not retried (line 184). -/
theorem c3_http400_attempt_counts :
    (CheckByAI.call_deepseek_with_retries (fun _ => .httpErr 400) MAX_RETRIES
      BACKOFF_FACTOR RATE_LIMIT_SECONDS).attempts = 1 ∧
    (CheckByAI.call_deepseek_with_retries (fun _ => .httpErr 400) MAX_RETRIES
      BACKOFF_FACTOR RATE_LIMIT_SECONDS).final = .raisedHttp 400 ∧
    CheckByAI.process_file (fun _ => .httpErr 400) ⟨"a.json", "a", .loaded (some "A") 1⟩ =
      .ok (.errorResult (some "A") "a.json" "HTTP 400") ∧
    (CheckByAIV1.call_deepseek_with_retries (fun _ => .httpErr 400) MAX_RETRIES
      BACKOFF_FACTOR RATE_LIMIT_SECONDS).attempts = 5 ∧
    (CheckByAIV1.call_deepseek_with_retries (fun _ => .httpErr 400) MAX_RETRIES
      BACKOFF_FACTOR RATE_LIMIT_SECONDS).final = .raisedHttp 400 :=
  ⟨rfl, rfl, rfl, rfl, rfl⟩

/-! ### Backoff delay formula -/

theorem syncCallLoop_sleeps_getD (respond : Nat → CallOutcome) (mr : Nat)
    (b j : ℚ) : ∀ fuel a k,
      k < (CheckByAI.callLoop respond mr b j fuel a).sleeps.length →
      (CheckByAI.callLoop respond mr b j fuel a).sleeps.getD k 0 =
        b ^ (a + k + 1) + j := by
  intro fuel
  induction fuel with
  | zero => intro a k hk; simp [CheckByAI.callLoop] at hk
  | succ fuel ih =>
    intro a k hk
    cases hr : respond a with
    | ok c => rw [CheckByAI.callLoop, hr] at hk; simp at hk
    | httpErr s =>
      by_cases h : 500 ≤ s ∧ s < 600 ∧ a < mr
      · rw [CheckByAI.callLoop, hr] at hk ⊢
        simp only [if_pos h] at hk ⊢
        cases k with
        | zero => simp
        | succ k =>
          rw [List.getD_cons_succ]
          rw [List.length_cons] at hk
          rw [show a + (k + 1) + 1 = (a + 1) + k + 1 by omega]
          exact ih (a + 1) k (by omega)
      · rw [CheckByAI.callLoop, hr] at hk; simp [if_neg h] at hk
    | netErr =>
      by_cases h : a < mr
      · rw [CheckByAI.callLoop, hr] at hk ⊢
        simp only [if_pos h] at hk ⊢
        cases k with
        | zero => simp
        | succ k =>
          rw [List.getD_cons_succ]
          rw [List.length_cons] at hk
          rw [show a + (k + 1) + 1 = (a + 1) + k + 1 by omega]
          exact ih (a + 1) k (by omega)
      · rw [CheckByAI.callLoop, hr] at hk; simp [if_neg h] at hk

theorem asyncCallLoop_sleeps_getD (respond : Nat → CallOutcome) (mr : Nat)
    (b j : ℚ) : ∀ fuel a k,
      k < (CheckByAIV1.callLoop respond mr b j fuel a).sleeps.length →
      (CheckByAIV1.callLoop respond mr b j fuel a).sleeps.getD k 0 =
        b ^ (a + k + 1) + j := by
  intro fuel
  induction fuel with
  | zero => intro a k hk; simp [CheckByAIV1.callLoop] at hk
  | succ fuel ih =>
    intro a k hk
    cases hr : respond a with
    | ok c => rw [CheckByAIV1.callLoop, hr] at hk; simp at hk
    | httpErr s =>
      by_cases h1 : 500 ≤ s ∧ s < 600 ∧ a < mr
      · rw [CheckByAIV1.callLoop, hr] at hk ⊢
        simp only [if_pos h1] at hk ⊢
        cases k with
        | zero => simp
        | succ k =>
          rw [List.getD_cons_succ]
          rw [List.length_cons] at hk
          rw [show a + (k + 1) + 1 = (a + 1) + k + 1 by omega]
          exact ih (a + 1) k (by omega)
      · by_cases h2 : a < mr
        · rw [CheckByAIV1.callLoop, hr] at hk ⊢
          simp only [if_neg h1, if_pos h2] at hk ⊢
          cases k with
          | zero => simp
          | succ k =>
            rw [List.getD_cons_succ]
            rw [List.length_cons] at hk
            rw [show a + (k + 1) + 1 = (a + 1) + k + 1 by omega]
            exact ih (a + 1) k (by omega)
        · rw [CheckByAIV1.callLoop, hr] at hk; simp [if_neg h1, if_neg h2] at hk
    | netErr =>
      by_cases h : a < mr
      · rw [CheckByAIV1.callLoop, hr] at hk ⊢
        simp only [if_pos h] at hk ⊢
        cases k with
        | zero => simp
        | succ k =>
          rw [List.getD_cons_succ]
          rw [List.length_cons] at hk
          rw [show a + (k + 1) + 1 = (a + 1) + k + 1 by omega]
          exact ih (a + 1) k (by omega)
      · rw [CheckByAIV1.callLoop, hr] at hk; simp [if_neg h] at hk

/-- C4: in both variants, whatever mix of retryable failures a call
sees, the k-th backoff delay slept (0-based, i.e. the delay before the
(k+2)-th POST, after the attempt counter was incremented to k+1)
equals backoff ^ (k+1) + jitter; with the default configuration this is
(3/2) ^ (k+1) + 1/10 seconds, the exact value of 1.5 ^ attemptsMade +
0.1 for attemptsMade = k+1 ranging over 1..maxRetries. -/
theorem c4_backoff_delay_formula (respond : Nat → CallOutcome) (mr : Nat)
    (b j : ℚ) (k : Nat) :
    (k < (CheckByAI.call_deepseek_with_retries respond mr b j).sleeps.length →
      (CheckByAI.call_deepseek_with_retries respond mr b j).sleeps.getD k 0 =
        b ^ (k + 1) + j) ∧
    (k < (CheckByAIV1.call_deepseek_with_retries respond mr b j).sleeps.length →
      (CheckByAIV1.call_deepseek_with_retries respond mr b j).sleeps.getD k 0 =
        b ^ (k + 1) + j) := by
  constructor
  · intro hk
    have := syncCallLoop_sleeps_getD respond mr b j (mr + 1) 0 k hk
    simpa using this
  · intro hk
    have := asyncCallLoop_sleeps_getD respond mr b j (mr + 1) 0 k hk
    simpa using this

/-- Witness for C4: a service failing with HTTP 500 on every call under
the default configuration sleeps (3/2) ^ 2 + 1/10 seconds before its
third POST. -/
theorem c4_backoff_delay_formula_witness :
    (CheckByAI.call_deepseek_with_retries (fun _ => .httpErr 500) MAX_RETRIES
      BACKOFF_FACTOR RATE_LIMIT_SECONDS).sleeps.getD 1 0 =
        BACKOFF_FACTOR ^ (1 + 1) + RATE_LIMIT_SECONDS ∧
    (CheckByAIV1.call_deepseek_with_retries (fun _ => .httpErr 500) MAX_RETRIES
      BACKOFF_FACTOR RATE_LIMIT_SECONDS).sleeps.getD 1 0 =
        BACKOFF_FACTOR ^ (1 + 1) + RATE_LIMIT_SECONDS :=
  ⟨(c4_backoff_delay_formula (fun _ => .httpErr 500) MAX_RETRIES BACKOFF_FACTOR
      RATE_LIMIT_SECONDS 1).1 (by decide),
   (c4_backoff_delay_formula (fun _ => .httpErr 500) MAX_RETRIES BACKOFF_FACTOR
      RATE_LIMIT_SECONDS 1).2 (by decide)⟩

/-! ### Treatment of empty / unparseable 2xx content -/

/-- C5 counterexample: a 2xx response whose nested message content is
empty IS treated as a failure by both variants - the worker returns an
explicit error record "Empty response from API" (checkByAI.py lines
225-227, checkByAIV1.py lines 249-251) - refuting the claim that an
empty or unparseable 2xx body is never treated as a failure. -/
theorem c5_empty_content_failure_counterexample :
    CheckByAI.process_file (fun _ => .ok .emptyContent)
        ⟨"f.json", "f", .loaded (some "A") 1⟩ =
      .ok (.errorResult (some "A") "f.json" "Empty response from API") ∧
    (CheckByAI.process_file (fun _ => .ok .emptyContent)
        ⟨"f.json", "f", .loaded (some "A") 1⟩).isFailure = true ∧
    CheckByAIV1.process_file_async (fun _ => .ok .emptyContent)
        ⟨"f.json", "f", .loaded (some "A") 1⟩ =
      .ok (.errorResult (some "A") "f.json" "Empty response from API") ∧
    (CheckByAIV1.process_file_async (fun _ => .ok .emptyContent)
        ⟨"f.json", "f", .loaded (some "A") 1⟩).isFailure = true :=
  ⟨rfl, rfl, rfl, rfl⟩

/-- C5 amended: for a 2xx response whose nested message content is
non-empty but not parseable as JSON, both variants preserve the raw
text as a degraded success wrapped with the item identity (a
raw_response record, never an error record); a 2xx response with EMPTY
content, however, is uniformly recorded as an error in both variants. -/
theorem c5_unparseable_degraded_success (fname stem raw : String)
    (d : Option String) (n : Nat) :
    CheckByAI.process_file (fun _ => .ok (.unparseable raw))
        ⟨fname, stem, .loaded d n⟩ =
      .ok (.rawResult (d.getD stem) fname raw) ∧
    (CheckByAI.process_file (fun _ => .ok (.unparseable raw))
        ⟨fname, stem, .loaded d n⟩).isFailure = false ∧
    CheckByAIV1.process_file_async (fun _ => .ok (.unparseable raw))
        ⟨fname, stem, .loaded d (n + 1)⟩ =
      .ok (.rawResult (d.getD stem) fname raw) ∧
    (CheckByAIV1.process_file_async (fun _ => .ok (.unparseable raw))
        ⟨fname, stem, .loaded d (n + 1)⟩).isFailure = false ∧
    (CheckByAI.process_file (fun _ => .ok .emptyContent)
        ⟨fname, stem, .loaded d n⟩).isFailure = true ∧
    (CheckByAIV1.process_file_async (fun _ => .ok .emptyContent)
        ⟨fname, stem, .loaded d (n + 1)⟩).isFailure = true :=
  ⟨rfl, rfl, rfl, rfl, rfl, rfl⟩

/-! ### One persisted result per item -/

/-- C1, code-level evidence: a work-set file whose content is valid
JSON but not an object loads successfully in both variants and is a
member of the work set, yet in checkByAIV1.py the worker raises
AttributeError at line 227 (data.get on the non-dict, a line outside
the try covering json.load) and the except of the coordinator at lines
306-307 only logs, issuing NO write: the item is silently dropped with
zero persisted results.  In checkByAI.py the same input still yields
exactly one persisted error record, because main converts the escaped
exception at lines 270-272 and writes it.  Concretely, a two-item
batch (one non-dict item, one ordinary item) yields two write events
in the sync variant but only one - the ordinary item - in the V1
variant. -/
theorem c1_nondict_item_dropped_async :
    CheckByAIV1.process_files_async_writes
        [⟨"bad.json", "bad", .loadedNonDict⟩, ⟨"ok.json", "ok", .loaded (some "A") 1⟩]
        (fun _ _ => .ok (.unparseable "x")) =
      [(1, "review_A.json", .rawResult "A" "ok.json" "x")] ∧
    CheckByAI.main_writes
        [⟨"bad.json", "bad", .loadedNonDict⟩, ⟨"ok.json", "ok", .loaded (some "A") 1⟩]
        (fun _ _ => .ok (.unparseable "x")) [0, 1] =
      [(0, "review_bad.json", .errorResult none "bad.json" "AttributeError"),
       (1, "review_A.json", .rawResult "A" "ok.json" "x")] :=
  ⟨rfl, rfl⟩

/-! ### Output-name collisions -/

theorem apply_writes_foldl (ws : List (Nat × String × ItemResult)) :
    ∀ (fs : String → Option ItemResult) (name : String),
      ws.foldl (fun fs e => fs_write fs e.2.1 e.2.2) fs name =
        match last_write_to ws name with
        | some r => some r
        | none => fs name := by
  induction ws with
  | nil => intro fs name; rfl
  | cons e ws ih =>
    intro fs name
    rw [List.foldl_cons, ih]
    cases hlw : last_write_to ws name with
    | some r => simp [last_write_to, hlw]
    | none =>
      simp only [last_write_to, hlw, fs_write]
      by_cases h : e.2.1 = name
      · simp [h]
      · have h2 : ¬name = e.2.1 := fun hh => h hh.symm
        simp [h, h2]

/-- C7 counterexample: two distinct items whose identities sanitize to
the same name BOTH write to review_A.json with no disambiguation; after
the run the single artifact holds only the record of the later item, so
the persisted content of the earlier item has been silently overwritten
and no
separate artifact exists for it - refuting the claim. -/
theorem c7_collision_overwrite_counterexample :
    CheckByAI.main_writes
        [⟨"f0.json", "f0", .loaded (some "A") 1⟩, ⟨"f1.json", "f1", .loaded (some "A") 1⟩]
        (fun _ _ => .ok (.unparseable "x")) [0, 1] =
      [(0, "review_A.json", .rawResult "A" "f0.json" "x"),
       (1, "review_A.json", .rawResult "A" "f1.json" "x")] ∧
    apply_writes (CheckByAI.main_writes
        [⟨"f0.json", "f0", .loaded (some "A") 1⟩, ⟨"f1.json", "f1", .loaded (some "A") 1⟩]
        (fun _ _ => .ok (.unparseable "x")) [0, 1]) "review_A.json" =
      some (.rawResult "A" "f1.json" "x") ∧
    ItemResult.rawResult "A" "f0.json" "x" ≠ ItemResult.rawResult "A" "f1.json" "x" := by
  refine ⟨by decide, by decide, by decide⟩

/-- C7 amended: when several items sanitize to the same output name, all
of their write events are issued against that one path and the final
persisted content at any path is that of the LAST write event naming it
(os.replace overwrites): a deterministic last-writer-wins rule, with no
disambiguation and no separate artifact per colliding item. -/
theorem c7_last_writer_wins (ws : List (Nat × String × ItemResult)) (name : String) :
    apply_writes ws name = last_write_to ws name := by
  unfold apply_writes
  rw [apply_writes_foldl]
  cases last_write_to ws name <;> rfl

/-! ### Exit status -/

/-- C9 counterexample: in checkByAI.py (and checkByAIV1.py) a missing
input directory - the canonical could-not-start condition the claim
cites - logs an error and returns from main, and the process exits with
status 0, not non-zero; no batch is run (the writes component is none).
Only proofread_mcqs.py exits non-zero in that situation. -/
theorem c9_missing_folder_exit_zero_counterexample :
    (CheckByAI.main_run false [] (fun _ _ => .netErr) []).2 = 0 ∧
    (CheckByAI.main_run false [] (fun _ _ => .netErr) []).1 = none ∧
    (CheckByAIV1.main_run false [] (fun _ _ => .netErr)).2 = 0 ∧
    (CheckByAIV1.main_run false [] (fun _ _ => .netErr)).1 = none ∧
    ProofreadMcqs.main_exit_code false = 1 :=
  ⟨rfl, rfl, rfl, rfl, rfl⟩

/-- C9 amended: a run that completed exits 0 in every variant (item
failures never change the exit status); but only proofread_mcqs.py
exits non-zero (status 1) when the run could not start because the
input directory is missing - the checkByAI variants exit 0 in every
case, including when the input directory is missing. -/
theorem c9_exit_status (folder_is_dir : Bool) (files : List WorkFile)
    (respond : Nat → Nat → CallOutcome) (order : List Nat) :
    (CheckByAI.main_run folder_is_dir files respond order).2 = 0 ∧
    (CheckByAIV1.main_run folder_is_dir files respond).2 = 0 ∧
    ProofreadMcqs.main_exit_code folder_is_dir =
      (if folder_is_dir then 0 else 1) := by
  refine ⟨?_, ?_, rfl⟩
  · unfold CheckByAI.main_run
    split_ifs <;> rfl
  · unfold CheckByAIV1.main_run
    split_ifs <;> rfl

/-! ### Atomicity of the result writer -/

theorem str_empty_append (s : String) : "" ++ s = s := by
  cases s
  rfl

theorem str_append_empty (s : String) : s ++ "" = s := by
  cases s with
  | mk d => exact congrArg String.mk (List.append_nil d)

theorem str_append_assoc (a b c : String) : a ++ b ++ c = a ++ (b ++ c) := by
  cases a with
  | mk x =>
    cases b with
    | mk y =>
      cases c with
      | mk z => exact congrArg String.mk (List.append_assoc x y z)

theorem apply_ops_no_touch (tmp target : String) (h : tmp ≠ target) :
    ∀ (l : List FsOp),
      (∀ op ∈ l, op = FsOp.createTemp tmp ∨ ∃ c, op = FsOp.appendTemp tmp c) →
      ∀ fs, apply_ops fs l target = fs target := by
  intro l
  induction l with
  | nil => intro _ fs; rfl
  | cons op l ih =>
    intro hop fs
    have h1 := hop op (List.mem_cons_self op l)
    have hrest := fun o ho => hop o (List.mem_cons_of_mem op ho)
    show apply_ops (apply_op fs op) l target = fs target
    rw [ih hrest]
    rcases h1 with h1 | ⟨c, h1⟩ <;> subst h1 <;>
      exact if_neg (fun e => h e.symm)

theorem apply_ops_append_content (tmp : String) :
    ∀ (chunks : List String) (fs : String → Option String) (s : String),
      fs tmp = some s →
      apply_ops fs (chunks.map (FsOp.appendTemp tmp)) tmp =
        some (s ++ joinChunks chunks) := by
  intro chunks
  induction chunks with
  | nil =>
    intro fs s hs
    rw [show joinChunks [] = "" from rfl, str_append_empty]
    exact hs
  | cons c cs ih =>
    intro fs s hs
    rw [List.map_cons]
    show apply_ops (apply_op fs (FsOp.appendTemp tmp c)) (cs.map (FsOp.appendTemp tmp))
      tmp = _
    have hstep : (apply_op fs (FsOp.appendTemp tmp c)) tmp = some (s ++ c) := by
      show (if tmp = tmp then (fs tmp).map (fun x => x ++ c) else fs tmp) = _
      rw [if_pos rfl, hs]
      rfl
    rw [ih _ (s ++ c) hstep,
      show joinChunks (c :: cs) = c ++ joinChunks cs from rfl, str_append_assoc]

/-- C6: every proper prefix of the operations of one atomic_write call -
that is, every crash point or concurrent observation before the final
os.replace - leaves the target path exactly as it was (the complete
previous file, or no file); after the whole sequence the target holds
exactly the complete new serialized content.  A reader therefore never
observes an incomplete file at the target path: the data is staged in
the temporary file (a fresh name in the same directory) and becomes
visible in the single rename step. -/
theorem c6_atomic_write_atomicity (fs : String → Option String) (tmp target : String)
    (chunks : List String) (h : tmp ≠ target) :
    (∀ k, apply_ops fs ((atomic_write_ops tmp chunks target).take k) target = fs target ∨
      apply_ops fs ((atomic_write_ops tmp chunks target).take k) target =
        some (joinChunks chunks)) ∧
    apply_ops fs (atomic_write_ops tmp chunks target) target =
      some (joinChunks chunks) := by
  have hpre : ∀ op ∈ FsOp.createTemp tmp :: chunks.map (FsOp.appendTemp tmp),
      op = FsOp.createTemp tmp ∨ ∃ c, op = FsOp.appendTemp tmp c := by
    intro op hop
    rcases List.mem_cons.mp hop with hop | hop
    · exact Or.inl hop
    · rcases List.mem_map.mp hop with ⟨c, _, rfl⟩
      exact Or.inr ⟨c, rfl⟩
  have hfull : apply_ops fs (atomic_write_ops tmp chunks target) target =
      some (joinChunks chunks) := by
    have hsplit : atomic_write_ops tmp chunks target =
        (FsOp.createTemp tmp :: chunks.map (FsOp.appendTemp tmp)) ++
          [FsOp.renameInto tmp target] := by
      simp [atomic_write_ops]
    rw [hsplit]
    unfold apply_ops
    rw [List.foldl_append]
    show apply_op (List.foldl apply_op fs _) (FsOp.renameInto tmp target) target = _
    have htmp : List.foldl apply_op fs
        (FsOp.createTemp tmp :: chunks.map (FsOp.appendTemp tmp)) tmp =
        some ("" ++ joinChunks chunks) := by
      rw [List.foldl_cons]
      have hcreate : (apply_op fs (FsOp.createTemp tmp)) tmp = some "" := if_pos rfl
      exact apply_ops_append_content tmp chunks _ "" hcreate
    show (if target = target then _ else _) = _
    rw [if_pos rfl, htmp, str_empty_append]
  refine ⟨?_, hfull⟩
  intro k
  by_cases hk : k ≤ (FsOp.createTemp tmp :: chunks.map (FsOp.appendTemp tmp)).length
  · left
    have hsplit : atomic_write_ops tmp chunks target =
        (FsOp.createTemp tmp :: chunks.map (FsOp.appendTemp tmp)) ++
          [FsOp.renameInto tmp target] := by
      simp [atomic_write_ops]
    rw [hsplit, List.take_append_of_le_length hk]
    refine apply_ops_no_touch tmp target h _ (fun op hop => hpre op ?_) fs
    exact (List.take_sublist _ _).mem hop
  · right
    have hlen : (atomic_write_ops tmp chunks target).length ≤ k := by
      simp only [atomic_write_ops, List.length_cons, List.length_append,
        List.length_map, List.length_cons] at hk ⊢
      simp at hk ⊢
      omega
    rw [List.take_of_length_le hlen]
    exact hfull

/-- Witness for C6: writing two chunks over an empty directory through a
temporary file distinct from the target leaves the complete
concatenation at the target. -/
theorem c6_atomic_write_atomicity_witness :
    apply_ops (fun _ => none) (atomic_write_ops "tmp0" ["ab", "c"] "out.json")
      "out.json" = some (joinChunks ["ab", "c"]) :=
  (c6_atomic_write_atomicity (fun _ => none) "tmp0" "out.json" ["ab", "c"]
    (by decide)).2

/-! ### Concurrency bound -/

theorem countP_set (p : TaskPhase → Bool) :
    ∀ (l : List TaskPhase) (i : Nat) (a b : TaskPhase), l[i]? = some a →
      (l.set i b).countP p + (if p a then 1 else 0) =
        l.countP p + (if p b then 1 else 0) := by
  intro l
  induction l with
  | nil => intro i a b hi; simp at hi
  | cons x xs ih =>
    intro i a b hi
    cases i with
    | zero =>
      rw [List.getElem?_cons_zero] at hi
      injection hi with hxa
      subst hxa
      simp only [List.set_cons_zero, List.countP_cons]
      omega
    | succ i =>
      rw [List.getElem?_cons_succ] at hi
      simp only [List.set_cons_succ, List.countP_cons]
      have := ih i a b hi
      omega

theorem countP_holdsPermit_replicate_idle (n : Nat) :
    (List.replicate n TaskPhase.idle).countP holdsPermit = 0 := by
  induction n with
  | zero => rfl
  | succ n ih =>
    rw [List.replicate_succ, List.countP_cons, ih,
      show holdsPermit .idle = false from rfl]
    rfl

theorem pool_invariant {N n : Nat} {s : PoolState} (h : PoolReachable N n s) :
    s.sem + s.tasks.countP holdsPermit = N := by
  induction h with
  | init =>
    show N + (List.replicate n TaskPhase.idle).countP holdsPermit = N
    rw [countP_holdsPermit_replicate_idle]
    omega
  | step hr hst ih =>
    rename_i s t
    cases hst with
    | startCall i hi hs =>
      have hc := countP_set holdsPermit s.tasks i _ .calling hi
      rw [show holdsPermit .idle = false from rfl,
        show holdsPermit .calling = true from rfl] at hc
      simp at hc
      show s.sem - 1 + (s.tasks.set i .calling).countP holdsPermit = N
      omega
    | failHold i hi =>
      have hc := countP_set holdsPermit s.tasks i _ .backoffHeld hi
      rw [show holdsPermit .calling = true from rfl,
        show holdsPermit .backoffHeld = true from rfl] at hc
      simp at hc
      show s.sem + (s.tasks.set i .backoffHeld).countP holdsPermit = N
      omega
    | failRelease i hi =>
      have hc := countP_set holdsPermit s.tasks i _ .backoffFree hi
      rw [show holdsPermit .calling = true from rfl,
        show holdsPermit .backoffFree = false from rfl] at hc
      simp at hc
      show s.sem + 1 + (s.tasks.set i .backoffFree).countP holdsPermit = N
      omega
    | resumeHeld i hi =>
      have hc := countP_set holdsPermit s.tasks i _ .calling hi
      rw [show holdsPermit .backoffHeld = true from rfl,
        show holdsPermit .calling = true from rfl] at hc
      simp at hc
      show s.sem + (s.tasks.set i .calling).countP holdsPermit = N
      omega
    | reacquire i hi hs =>
      have hc := countP_set holdsPermit s.tasks i _ .calling hi
      rw [show holdsPermit .backoffFree = false from rfl,
        show holdsPermit .calling = true from rfl] at hc
      simp at hc
      show s.sem - 1 + (s.tasks.set i .calling).countP holdsPermit = N
      omega
    | finishCall i hi =>
      have hc := countP_set holdsPermit s.tasks i _ .done hi
      rw [show holdsPermit .calling = true from rfl,
        show holdsPermit .done = false from rfl] at hc
      simp at hc
      show s.sem + 1 + (s.tasks.set i .done).countP holdsPermit = N
      omega

theorem countP_isCalling_le_holdsPermit (l : List TaskPhase) :
    l.countP isCalling ≤ l.countP holdsPermit := by
  induction l with
  | nil => exact le_refl _
  | cons x xs ih =>
    simp only [List.countP_cons]
    have hx : (if isCalling x then 1 else 0) ≤ (if holdsPermit x then 1 else 0) := by
      cases x <;> decide
    omega

/-- C8: in every state reachable by any interleaving of the batch -
whatever mix of fresh acquisitions, in-flight calls, held or released
backoff sleeps and completions the items go through - the number of
Remote Caller invocations in flight never exceeds the semaphore bound
N: a task can only be calling while holding one of the N permits. -/
theorem c8_concurrency_bound {N n : Nat} {s : PoolState}
    (h : PoolReachable N n s) : s.tasks.countP isCalling ≤ N := by
  have hinv := pool_invariant h
  have hmono := countP_isCalling_le_holdsPermit s.tasks
  omega

/-- Witness for C8: after a batch of three tasks under the default bound
of 10 permits starts one call, the reached state has one call in
flight, within the bound. -/
theorem c8_concurrency_bound_witness :
    ((⟨10 - 1, (List.replicate 3 TaskPhase.idle).set 0 .calling⟩ :
      PoolState).tasks.countP isCalling ≤ 10) :=
  c8_concurrency_bound
    (PoolReachable.step PoolReachable.init
      (PoolStep.startCall ⟨10, List.replicate 3 .idle⟩ 0 (by decide) (by decide)))

end OrderJsonFiles
